import Mathlib

/-!
Verification of the concurrent geocode-and-merge pipeline (`main.py`).

The embedding models one row of the dataframe as an association list of
column-name/cell pairs, a decoded JSON response body as a small AST `J`,
and the Python dictionary/list operations the script uses (`d.get`,
`d[k]`, `k in d`, iteration, integer indexing) as functions returning
`Except String` so that the exceptions the script can raise are explicit
values.  The pyproj transformer is an external dependency, so the
projection is a function parameter `proj : ℚ → ℚ → ℚ × ℚ`; exception
message texts are abridged to the exception class name.
-/

/-- A dataframe cell: missing value (NaN), a string, or an integer. -/
inductive Cell where
  | na
  | str (s : String)
  | int (n : Nat)
deriving DecidableEq, Repr

/-- One dataframe row (or one `itertuples` namedtuple, or one of the
dictionaries built by `_asdict`): column names paired with cells, in
column order. -/
abbrev Row := List (String × Cell)

/-- Association-list lookup, the model of namedtuple attribute access and
dictionary key access on rows. -/
def Row.lookup : Row → String → Option Cell
  | [], _ => none
  | (k', v) :: rest, k => if k' == k then some v else Row.lookup rest k

/-- The column names of a row, in order. -/
def Row.keys (r : Row) : List String := r.map Prod.fst

/-- Python dictionary assignment `d[k] = v`: replace the first binding of
`k` in place, or append a new binding when the key is absent. -/
def setCell : Row → String → Cell → Row
  | [], k, v => [(k, v)]
  | (k', v') :: rest, k, v =>
    if k' == k then (k, v) :: rest else (k', v') :: setCell rest k v

/-- `pd.isna` on a cell. -/
def isna : Cell → Bool
  | .na => true
  | _ => false

/-- Decoded JSON values, the shape of every provider response body. -/
inductive J where
  | null
  | num (q : ℚ)
  | str (s : String)
  | arr (xs : List J)
  | obj (kvs : List (String × J))

/-- Python truthiness of a decoded JSON value. -/
def J.truthy : J → Bool
  | .null => false
  | .num q => decide (q ≠ 0)
  | .str s => decide (s ≠ "")
  | .arr xs => !xs.isEmpty
  | .obj kvs => !kvs.isEmpty

/-- Whether a JSON value is the string `k` (used for Python `in` on lists). -/
def J.isStrEq (k : String) : J → Bool
  | .str s => s == k
  | _ => false

/-- Python `k in d`: key membership for dictionaries, element membership
for lists, substring test for strings, `TypeError` otherwise. -/
def pyIn (k : String) : J → Except String Bool
  | .obj kvs => .ok (kvs.any (fun p => p.1 == k))
  | .arr xs => .ok (xs.any (J.isStrEq k))
  | .str s => .ok (k == "" || decide (2 ≤ (s.splitOn k).length))
  | _ => .error "TypeError"

/-- Python `d[k]` with a string key: dictionary lookup raising `KeyError`
when absent, `TypeError` on anything that is not a dictionary. -/
def pyIndexKey : J → String → Except String J
  | .obj kvs, k =>
    match kvs.find? (fun p => p.1 == k) with
    | some p => .ok p.2
    | none => .error "KeyError"
  | _, _ => .error "TypeError"

/-- Python `d.get(k)`: `None` when the key is absent; `AttributeError`
when the receiver is not a dictionary (in particular when it is `None`). -/
def pyGet : J → String → Except String J
  | .obj kvs, k =>
    match kvs.find? (fun p => p.1 == k) with
    | some p => .ok p.2
    | none => .ok .null
  | _, _ => .error "AttributeError"

/-- Python `d.get(k, default)`. -/
def pyGetD : J → String → J → Except String J
  | .obj kvs, k, d =>
    match kvs.find? (fun p => p.1 == k) with
    | some p => .ok p.2
    | none => .ok d
  | _, _, _ => .error "AttributeError"

/-- Python `d[i]` with an integer index: list and string indexing with
`IndexError` out of range, `KeyError` on dictionaries (their keys here
are strings), `TypeError` otherwise. -/
def pyIndexNat : J → Nat → Except String J
  | .arr xs, i =>
    match xs.get? i with
    | some x => .ok x
    | none => .error "IndexError"
  | .str s, i =>
    match s.toList.get? i with
    | some c => .ok (.str (String.singleton c))
    | none => .error "IndexError"
  | .obj _, _ => .error "KeyError"
  | _, _ => .error "TypeError"

/-- Python iteration `for x in d`: list elements, string characters,
dictionary keys; `TypeError` on `None` and numbers. -/
def pyIter : J → Except String (List J)
  | .arr xs => .ok xs
  | .str s => .ok (s.toList.map (fun c => J.str (String.singleton c)))
  | .obj kvs => .ok (kvs.map (fun p => J.str p.1))
  | _ => .error "TypeError"

/-!
### The source embedding (`main.py`)
-/

/-- `main.py` line 12, `convert_lat_lon_to_UTM(lat, lon)`: calls
`transformer.transform(lon, lat)` (the pyproj transformer is the function
parameter `proj`, applied longitude first) and serializes the projected
pair as the literal `POINT(x y)`.  Non-numeric arguments are a pyproj
domain error, propagated to the caller. -/
def convert_lat_lon_to_UTM (proj : ℚ → ℚ → ℚ × ℚ) (lat lon : J) :
    Except String String :=
  match lat, lon with
  | .num la, .num lo =>
    let p := proj lo la
    .ok ("POINT(" ++ toString p.1 ++ " " ++ toString p.2 ++ ")")
  | _, _ => .error "TypeError"

/-- `main.py` line 17, `duplicate_row_with_new_UTM(row, coordinates)`:
`row._asdict()` (the row argument is already the namedtuple, so the
dictionary is the row itself) with `the_geom` overwritten by
`convert_lat_lon_to_UTM(coordinates[1], coordinates[0])`. -/
def duplicate_row_with_new_UTM (proj : ℚ → ℚ → ℚ × ℚ) (row : Row)
    (coordinates : J) : Except String Row := do
  let c1 ← pyIndexNat coordinates 1
  let c0 ← pyIndexNat coordinates 0
  let utm ← convert_lat_lon_to_UTM proj c1 c0
  return setCell row "the_geom" (Cell.str utm)

/-- The per-result body of the loop in `normalize_google_response`
(`main.py` lines 31-39): results exposing a `geometry.location` become
features with `coordinates = [lng, lat]`, in result order; other results
are skipped; a location missing `lng` or `lat` raises `KeyError`. -/
def googleFeatures : List J → Except String (List J)
  | [] => .ok []
  | result :: rest => do
    let hg ← pyIn "geometry" result
    if hg then
      let geom ← pyIndexKey result "geometry"
      let hl ← pyIn "location" geom
      if hl then
        let location ← pyIndexKey geom "location"
        let lng ← pyIndexKey location "lng"
        let lat ← pyIndexKey location "lat"
        let restf ← googleFeatures rest
        return (J.obj [("geometry", J.obj [("coordinates", J.arr [lng, lat])])]) :: restf
      else
        googleFeatures rest
    else
      googleFeatures rest

/-- `main.py` line 22, `normalize_google_response(data)`: `None` when the
body is falsy, lacks a `results` key, or has a falsy `results` value;
otherwise a Geoapify-shaped `features` object built by the loop. -/
def normalize_google_response (data : J) : Except String J := do
  let hr ←
    if data.truthy then do
      let h ← pyIn "results" data
      if h then do
        let results ← pyIndexKey data "results"
        pure results.truthy
      else pure false
    else pure false
  if hr then do
    let results ← pyIndexKey data "results"
    let items ← pyIter results
    let fs ← googleFeatures items
    return J.obj [("features", J.arr fs)]
  else
    return J.null

/-- Python `s.lower()` (ASCII lowering; the provider tags compared are
ASCII). -/
def pyLower (s : String) : String := String.mk (s.data.map Char.toLower)

/-- `main.py` line 52/54: the request URL, chosen by `api_type.lower()`. -/
def fetchUrl (api_type endereco : String) : String :=
  bif pyLower api_type == "google" then
    "http://localhost:8080/external/geocode?address=" ++ endereco
  else
    "http://localhost:8080/external/geocode-geoapify?address=" ++ endereco

/-- Outcome of one `requests.get`: a raised transport exception, or a
response with a status code and a body whose JSON decoding may itself
raise. -/
inductive HttpOutcome where
  | err (e : String)
  | resp (status : Nat) (body : Except String J)

/-- `main.py` lines 56-66: the part of `fetch_geocode` after the request
returns.  A `200` body is decoded and, for the Google API only, passed
through the normalizer; any raised exception is caught and logged with
the offending address, returning `None`; a non-`200` status returns
`None` without logging. -/
def handleResp (api_type endereco : String) : HttpOutcome → J × List String
  | .err e => (J.null, ["Error fetching geocode for " ++ endereco ++ ": " ++ e])
  | .resp status body =>
    bif status == 200 then
      match body with
      | .error e => (J.null, ["Error fetching geocode for " ++ endereco ++ ": " ++ e])
      | .ok data =>
        bif pyLower api_type == "google" then
          match normalize_google_response data with
          | .error e =>
            (J.null, ["Error fetching geocode for " ++ endereco ++ ": " ++ e])
          | .ok nd => (nd, [])
        else (data, [])
    else (J.null, [])

/-- `main.py` line 43, `fetch_geocode(endereco, api_type)`: build the
provider URL, perform the request (the transport is the function
parameter `http`), and handle the outcome.  Returns the result value
(`J.null` standing for Python `None`) together with the diagnostics
printed. -/
def fetch_geocode (http : String → HttpOutcome) (endereco api_type : String) :
    J × List String :=
  handleResp api_type endereco (http (fetchUrl api_type endereco))

/-- `main.py` line 87: the query string for one address, all `-` and
`P/` occurrences stripped and the region suffix appended. -/
def mkQuery (s : String) : String :=
  ((s.replace "-" "").replace "P/" "") ++ " PARANA"

/-- The namedtuple `df.itertuples()` yields for the row at position `i`
of a default-indexed dataframe: the `Index` field followed by the row's
columns. -/
def itRow (i : Nat) (r : Row) : Row := ("Index", Cell.int i) :: r

/-- `main.py` lines 84-88, `rows_to_process`: for each row position, if
`pd.isna(row.the_geom)` then `(row_idx, row, endereco)` is recorded with
the normalized query; rows with geometry are skipped.  A missing
`the_geom` column, or a non-string address on an eligible row, raises
(`AttributeError`) and aborts the script. -/
def rowsToProcessFrom : Nat → List Row → Except String (List (Nat × Row × String))
  | _, [] => .ok []
  | i, r :: rest =>
    match Row.lookup r "the_geom" with
    | none => .error "AttributeError"
    | some g =>
      if isna g then
        match Row.lookup r "endereco" with
        | some (Cell.str s) => do
          let rest' ← rowsToProcessFrom (i + 1) rest
          return (i, itRow i r, mkQuery s) :: rest'
        | some _ => .error "AttributeError"
        | none => .error "AttributeError"
      else
        rowsToProcessFrom (i + 1) rest

/-- `rows_to_process` over the whole dataframe, positions from zero. -/
def rowsToProcess (rows : List Row) : Except String (List (Nat × Row × String)) :=
  rowsToProcessFrom 0 rows

/-- `main.py` lines 105-110, the body of the feature loop for one
enumerated feature: extract `coordinates`; at `i = 0` produce the
in-place geometry update, otherwise produce a cloned row. -/
def handleFeature (proj : ℚ → ℚ → ℚ × ℚ) (row : Row) (i : Nat) (feature : J) :
    Except String (String ⊕ Row) := do
  let g ← pyGet feature "geometry"
  let coordinates ← pyGet g "coordinates"
  if i == 0 then
    let c1 ← pyIndexNat coordinates 1
    let c0 ← pyIndexNat coordinates 0
    let utm ← convert_lat_lon_to_UTM proj c1 c0
    return .inl utm
  else do
    let r ← duplicate_row_with_new_UTM proj row coordinates
    return .inr r

/-- The enumerated feature loop of `main.py` lines 105-110, threading the
pending geometry update and the accumulated cloned rows; the first
exception stops the loop, keeping the effects of the features already
processed (it is caught by the `except` of lines 111-112 and reported as
the third component). -/
def processFeatures (proj : ℚ → ℚ → ℚ × ℚ) (row : Row) :
    Nat → List J → Option String → List Row →
    Option String × List Row × Option String
  | _, [], upd, acc => (upd, acc, none)
  | i, f :: rest, upd, acc =>
    match handleFeature proj row i f with
    | .error e => (upd, acc, some e)
    | .ok (.inl utm) => processFeatures proj row (i + 1) rest (some utm) acc
    | .ok (.inr r) => processFeatures proj row (i + 1) rest upd (acc ++ [r])

/-- `main.py` lines 104-112, processing one completed lookup result:
nothing on a falsy body, otherwise the feature loop over
`data.get('features', [])`; exceptions before the loop (a body without
`.get`, a non-iterable `features` value) are likewise caught by the
surrounding `except`. -/
def processOne (proj : ℚ → ℚ → ℚ × ℚ) (row : Row) (data : J) :
    Option String × List Row × Option String :=
  if data.truthy then
    match pyGetD data "features" (J.arr []) with
    | .error e => (none, [], some e)
    | .ok fsJ =>
      match pyIter fsJ with
      | .error e => (none, [], some e)
      | .ok fs => processFeatures proj row 0 fs none []
  else (none, [], none)

/-- Python dictionary insertion `updates[row_idx] = utm`: replace an
existing binding in place, else append. -/
def upsert (m : List (Nat × String)) (k : Nat) (v : String) : List (Nat × String) :=
  match m with
  | [] => [(k, v)]
  | (k', v') :: rest => if k' = k then (k, v) :: rest else (k', v') :: upsert rest k v

/-- `main.py` lines 100-112, the completion loop: consume completed
lookups in the given (arbitrary completion) order, accumulating the
`updates` dictionary, the `new_rows` list and the diagnostics printed by
the per-record exception handler. -/
def reconcileFrom (proj : ℚ → ℚ → ℚ × ℚ)
    (st : List (Nat × String) × List Row × List String) :
    List ((Nat × Row × String) × J) →
    List (Nat × String) × List Row × List String
  | [] => st
  | ((idx, row, endereco), data) :: rest =>
    let r := processOne proj row data
    let updates' := match r.1 with
      | some u => upsert st.1 idx u
      | none => st.1
    let logs' := match r.2.2 with
      | some e => st.2.2 ++ ["Error processing " ++ endereco ++ ": " ++ e]
      | none => st.2.2
    reconcileFrom proj (updates', st.2.1 ++ r.2.1, logs') rest

/-- The completion loop started from the empty state. -/
def reconcile (proj : ℚ → ℚ → ℚ × ℚ)
    (completed : List ((Nat × Row × String) × J)) :
    List (Nat × String) × List Row × List String :=
  reconcileFrom proj ([], [], []) completed

/-- `df.at[row_idx, 'the_geom'] = utm` for one update: overwrite the
geometry cell of the row at that position. -/
def updateAt : List Row → Nat → String → List Row
  | [], _, _ => []
  | r :: rest, 0, utm => setCell r "the_geom" (Cell.str utm) :: rest
  | r :: rest, n + 1, utm => r :: updateAt rest n utm

/-- `main.py` lines 114-116: apply every recorded update to the
dataframe. -/
def applyUpdates (rows : List Row) (updates : List (Nat × String)) : List Row :=
  updates.foldl (fun acc p => updateAt acc p.1 p.2) rows

/-- A row realigned to the given column list, missing columns filled with
NaN — what `pd.concat` does to each row when the two frames' columns
differ. -/
def reorder (outCols : List String) (r : Row) : Row :=
  outCols.map (fun k => (k, (Row.lookup r k).getD Cell.na))

/-- `main.py` lines 119-120: when `new_rows` is non-empty, concatenate —
the output columns are the dataframe's columns followed by the new rows'
extra columns, every row realigned (original rows get NaN in the extra
columns). -/
def concatNewRows (cols : List String) (df new_rows : List Row) : List Row :=
  match new_rows with
  | [] => df
  | nr :: _ =>
    let outCols := cols ++ (Row.keys nr).filter (fun k => !cols.contains k)
    df.map (reorder outCols) ++ new_rows.map (reorder outCols)

/-- Lines 100-120 as one function of the completed-lookup list: run the
completion loop, apply the updates in place, then concatenate the new
rows.  Returns the final row list and the diagnostics. -/
def mergePhase (proj : ℚ → ℚ → ℚ × ℚ) (cols : List String) (rows : List Row)
    (completed : List ((Nat × Row × String) × J)) : List Row × List String :=
  let st := reconcile proj completed
  (concatNewRows cols (applyUpdates rows st.1) st.2.1, st.2.2)

/-- The final row list of the merge phase. -/
def pipelineOut (proj : ℚ → ℚ → ℚ × ℚ) (cols : List String) (rows : List Row)
    (completed : List ((Nat × Row × String) × J)) : List Row :=
  (mergePhase proj cols rows completed).1

/-- The whole pipeline of `main.py` lines 84-120 for a given transport:
build the queries, fetch each one (the script fetches concurrently and
consumes completions in arrival order; fetching is pure in the transport
parameter, so only the consumption order varies, and this function fixes
submission order — order-sensitive claims quantify over `mergePhase`
directly), then merge.  Fails as the script does when a queried row lacks
the needed columns. -/
def runPipeline (proj : ℚ → ℚ → ℚ × ℚ) (http : String → HttpOutcome)
    (api_type : String) (cols : List String) (rows : List Row) :
    Except String (List Row × List String) := do
  let qs ← rowsToProcess rows
  let fetched := qs.map (fun q => (q, fetch_geocode http q.2.2 api_type))
  let completed := fetched.map (fun p => (p.1, p.2.1))
  let fetchLogs := fetched.flatMap (fun p => p.2.2)
  let st := mergePhase proj cols rows completed
  return (st.1, fetchLogs ++ st.2)

/-!
### Canonical response shapes and spec-side helpers
-/

/-- The serialized projection of one `(longitude, latitude)` pair: the
`POINT(x y)` literal for `proj lon lat`. -/
def utmStr (proj : ℚ → ℚ → ℚ × ℚ) (c : ℚ × ℚ) : String :=
  "POINT(" ++ toString (proj c.1 c.2).1 ++ " " ++ toString (proj c.1 c.2).2 ++ ")"

/-- A well-formed Geoapify feature carrying `coordinates = [lon, lat]`. -/
def gFeature (lo la : ℚ) : J :=
  J.obj [("geometry", J.obj [("coordinates", J.arr [J.num lo, J.num la])])]

/-- A `features` container around arbitrary feature values. -/
def featuresData (fs : List J) : J := J.obj [("features", J.arr fs)]

/-- A well-formed Geoapify response body for the given `(lon, lat)` pairs. -/
def geoData (coords : List (ℚ × ℚ)) : J :=
  featuresData (coords.map (fun c => gFeature c.1 c.2))

/-- A well-formed Google result exposing `geometry.location.{lat,lng}`. -/
def gLoc (la lo : ℚ) : J :=
  J.obj [("geometry", J.obj [("location",
    J.obj [("lat", J.num la), ("lng", J.num lo)])])]

/-- A well-formed Google response body for the given `(lat, lng)` pairs. -/
def gBody (rs : List (ℚ × ℚ)) : J :=
  J.obj [("results", J.arr (rs.map (fun p => gLoc p.1 p.2)))]

/-- The clone produced for one extra coordinate pair: the originating
namedtuple row with only the geometry replaced. -/
def dupRow (proj : ℚ → ℚ → ℚ × ℚ) (r : Row) (c : ℚ × ℚ) : Row :=
  setCell r "the_geom" (Cell.str (utmStr proj c))

/-- A lookup result carrying no usable coordinate pair: a falsy body
(`None`, `{}`, …) or a body whose `features` entry is the empty list. -/
def emptyResult (d : J) : Prop :=
  d.truthy = false ∨ pyGetD d "features" (J.arr []) = .ok (J.arr [])

/-- The dataframe invariant: distinct column names not containing
`Index`, and every row carrying exactly those columns in order. -/
def schemaOK (cols : List String) (rows : List Row) : Prop :=
  cols.Nodup ∧ "Index" ∉ cols ∧ ∀ r ∈ rows, Row.keys r = cols

/-- The cell of column `k` in the row at position `i`. -/
def cellAt (rows : List Row) (i : Nat) (k : String) : Option Cell :=
  (rows.get? i).bind (fun r => Row.lookup r k)

/-!
### Concrete instances used to exercise the theorems
-/

/-- A sample projection (any fixed `ℚ → ℚ → ℚ × ℚ` function stands in for
the pyproj transformer). -/
def projEx : ℚ → ℚ → ℚ × ℚ := fun lo la => (lo + 1000, la + 2000)

/-- A sample unresolved row. -/
def rowEx : Row := [("endereco", Cell.str "RUA A, 10 - PARANA"), ("the_geom", Cell.na)]

/-- A sample row whose geometry is already present. -/
def rowGeomEx : Row := [("endereco", Cell.str "RUA B, 2"), ("the_geom", Cell.str "POINT(1 2)")]

/-- The column list of the sample dataframe. -/
def colsEx : List String := ["endereco", "the_geom"]

/-- A Geoapify body whose single feature has no `geometry` key. -/
def badFeatureData : J := J.obj [("features", J.arr [J.obj []])]

/-- A transport answering every URL with status 200 and the given body. -/
def httpRespEx (body : J) : String → HttpOutcome := fun _ => .resp 200 (.ok body)

/-- A transport raising a timeout on every URL. -/
def httpErrEx : String → HttpOutcome := fun _ => .err "timeout"

/-- A transport answering every URL with status 404. -/
def http404Ex : String → HttpOutcome := fun _ => .resp 404 (.ok J.null)

/-- A transport whose body decoding raises on every URL. -/
def httpDecodeErrEx : String → HttpOutcome := fun _ => .resp 200 (.error "JSONDecodeError")

/-!
### Association-list lemmas
-/

theorem lookup_setCell_self (r : Row) (k : String) (v : Cell) :
    Row.lookup (setCell r k v) k = some v := by
  induction r with
  | nil => simp [setCell, Row.lookup]
  | cons p rest ih =>
    by_cases h : p.1 = k
    · simp [setCell, Row.lookup, h]
    · simp [setCell, Row.lookup, h, ih]

theorem lookup_setCell_ne (r : Row) (k k' : String) (v : Cell) (h : k' ≠ k) :
    Row.lookup (setCell r k v) k' = Row.lookup r k' := by
  have hkk : ¬ k = k' := Ne.symm h
  induction r with
  | nil => simp [setCell, Row.lookup, hkk]
  | cons p rest ih =>
    by_cases hp : p.1 = k
    · simp [setCell, Row.lookup, hp, hkk]
    · simp [setCell, Row.lookup, hp, ih]

theorem keys_setCell_mem (r : Row) (k : String) (v : Cell)
    (h : k ∈ Row.keys r) : Row.keys (setCell r k v) = Row.keys r := by
  induction r with
  | nil => simp [Row.keys] at h
  | cons p rest ih =>
    by_cases hp : p.1 = k
    · simp [setCell, Row.keys, hp]
    · have hr : k ∈ Row.keys rest := by
        rcases List.mem_cons.mp h with h1 | h1
        · exact absurd h1.symm hp
        · exact h1
      have ih2 := ih hr
      simp only [Row.keys, List.map_cons] at ih2 ⊢
      simp [setCell, hp, ih2]

theorem lookup_none_iff (r : Row) (k : String) :
    Row.lookup r k = none ↔ k ∉ Row.keys r := by
  induction r with
  | nil => simp [Row.lookup, Row.keys]
  | cons p rest ih =>
    by_cases hp : p.1 = k
    · simp [Row.lookup, Row.keys, hp]
    · simp [Row.lookup, Row.keys, hp, ih, Ne.symm hp]

theorem lookup_isSome_of_mem (r : Row) (k : String) (h : k ∈ Row.keys r) :
    ∃ v, Row.lookup r k = some v := by
  rcases hl : Row.lookup r k with _ | v
  · exact absurd ((lookup_none_iff r k).mp hl) (by simp [h])
  · exact ⟨v, rfl⟩

theorem lookup_cons_ne (k0 : String) (w : Cell) (r : Row) (k : String)
    (h : k0 ≠ k) : Row.lookup ((k0, w) :: r) k = Row.lookup r k := by
  simp [Row.lookup, h]

theorem reorder_append (cs ds : List String) (r : Row) :
    reorder (cs ++ ds) r = reorder cs r ++ reorder ds r := by
  simp [reorder]

theorem reorder_cons_notmem (cs : List String) (k0 : String) (w : Cell)
    (r : Row) (h : k0 ∉ cs) : reorder cs ((k0, w) :: r) = reorder cs r := by
  simp only [reorder]
  refine List.map_congr_left (fun k hk => ?_)
  have hne : k0 ≠ k := fun he => h (he ▸ hk)
  rw [lookup_cons_ne _ _ _ _ hne]

theorem reorder_self (r : Row) (cs : List String) (hk : Row.keys r = cs)
    (hnd : cs.Nodup) : reorder cs r = r := by
  induction r generalizing cs with
  | nil => simp [Row.keys] at hk; simp [hk, reorder]
  | cons p rest ih =>
    rcases p with ⟨k0, v0⟩
    rcases cs with _ | ⟨c, cs'⟩
    · simp [Row.keys] at hk
    · have hk0 : k0 = c := by simpa [Row.keys] using congrArg (fun l => l.head?) hk
      have hkrest : Row.keys rest = cs' := by
        have := congrArg List.tail hk
        simpa [Row.keys] using this
      have hnotin : c ∉ cs' := (List.nodup_cons.mp hnd).1
      have hnd' : cs'.Nodup := (List.nodup_cons.mp hnd).2
      have h1 : reorder cs' ((k0, v0) :: rest) = reorder cs' rest := by
        apply reorder_cons_notmem
        exact hk0 ▸ hnotin
      calc reorder (c :: cs') ((k0, v0) :: rest)
          = (c, ((Row.lookup ((k0, v0) :: rest) c)).getD Cell.na)
              :: reorder cs' ((k0, v0) :: rest) := by simp [reorder]
        _ = (k0, v0) :: rest := by
            rw [h1, ih cs' hkrest hnd']
            simp [Row.lookup, hk0]

/-!
### Feature-loop lemmas
-/

theorem handleFeature_zero (proj : ℚ → ℚ → ℚ × ℚ) (row : Row) (lo la : ℚ) :
    handleFeature proj row 0 (gFeature lo la) = .ok (.inl (utmStr proj (lo, la))) := rfl

theorem handleFeature_succ (proj : ℚ → ℚ → ℚ × ℚ) (row : Row) (n : Nat) (lo la : ℚ) :
    handleFeature proj row (n + 1) (gFeature lo la)
      = .ok (.inr (dupRow proj row (lo, la))) := rfl

theorem processFeatures_shift (proj : ℚ → ℚ → ℚ × ℚ) (row : Row)
    (coords : List (ℚ × ℚ)) :
    ∀ (n : Nat) (fs : List J) (upd : Option String) (acc : List Row),
    processFeatures proj row (n + 1)
        ((coords.map (fun c => gFeature c.1 c.2)) ++ fs) upd acc
      = processFeatures proj row (n + 1 + coords.length) fs upd
          (acc ++ coords.map (dupRow proj row)) := by
  induction coords with
  | nil => intro n fs upd acc; simp
  | cons c cs ih =>
    intro n fs upd acc
    have e1 := ih (n + 1) fs upd (acc ++ [dupRow proj row c])
    simp only [List.map_cons, List.cons_append, List.length_cons, processFeatures,
      handleFeature_succ, Prod.mk.eta, List.append_eq]
    rw [e1, show n + 1 + 1 + cs.length = n + 1 + (cs.length + 1) from by omega,
      List.append_assoc]
    simp

theorem processFeatures_error (proj : ℚ → ℚ → ℚ × ℚ) (row : Row) (i : Nat)
    (f : J) (rest : List J) (upd : Option String) (acc : List Row) (e : String)
    (h : handleFeature proj row i f = .error e) :
    processFeatures proj row i (f :: rest) upd acc = (upd, acc, some e) := by
  simp [processFeatures, h]

theorem processOne_geoData (proj : ℚ → ℚ → ℚ × ℚ) (row : Row) (c : ℚ × ℚ)
    (cs : List (ℚ × ℚ)) :
    processOne proj row (geoData (c :: cs))
      = (some (utmStr proj c), cs.map (dupRow proj row), none) := by
  have hs := processFeatures_shift proj row cs 0 [] (some (utmStr proj c)) []
  simp only [Nat.zero_add, List.nil_append] at hs
  show processFeatures proj row 1 (List.map (fun c => gFeature c.1 c.2) cs)
    (some (utmStr proj c)) [] = _
  rw [show (List.map (fun c : ℚ × ℚ => gFeature c.1 c.2) cs)
        = (List.map (fun c : ℚ × ℚ => gFeature c.1 c.2) cs) ++ []
      from (List.append_nil _).symm]
  rw [hs]
  simp [processFeatures]

theorem processOne_geoData_bad (proj : ℚ → ℚ → ℚ × ℚ) (row : Row) (c : ℚ × ℚ)
    (cs : List (ℚ × ℚ)) (f : J) (rest : List J) (e : String)
    (h : handleFeature proj row (cs.length + 1) f = .error e) :
    processOne proj row
        (featuresData (((c :: cs).map (fun p => gFeature p.1 p.2)) ++ f :: rest))
      = (some (utmStr proj c), cs.map (dupRow proj row), some e) := by
  have hs := processFeatures_shift proj row cs 0 (f :: rest) (some (utmStr proj c)) []
  simp only [Nat.zero_add, List.nil_append] at hs
  have hidx : 1 + cs.length = cs.length + 1 := by omega
  show processFeatures proj row 1
    (List.map (fun p => gFeature p.1 p.2) cs ++ f :: rest) (some (utmStr proj c)) [] = _
  rw [hs, hidx]
  exact processFeatures_error proj row _ f rest _ _ e h

/-!
### Completion-loop and update lemmas
-/

theorem upsert_mem (m : List (Nat × String)) (k : Nat) (v : String)
    (p : Nat × String) (h : p ∈ upsert m k v) : p.1 = k ∨ p ∈ m := by
  induction m with
  | nil => simp [upsert] at h; simp [h]
  | cons q rest ih =>
    by_cases hq : q.1 = k
    · simp only [upsert, hq, if_pos rfl] at h
      rcases List.mem_cons.mp h with h1 | h1
      · left; simp [h1]
      · right; exact List.mem_cons_of_mem _ h1
    · simp only [upsert, hq, if_neg hq] at h
      rcases List.mem_cons.mp h with h1 | h1
      · right; exact h1 ▸ List.mem_cons_self _ _
      · rcases ih h1 with h2 | h2
        · exact Or.inl h2
        · exact Or.inr (List.mem_cons_of_mem _ h2)

theorem reconcileFrom_updates_mem (proj : ℚ → ℚ → ℚ × ℚ)
    (l : List ((Nat × Row × String) × J))
    (st : List (Nat × String) × List Row × List String) (p : Nat × String)
    (h : p ∈ (reconcileFrom proj st l).1) :
    p ∈ st.1 ∨ ∃ c ∈ l, c.1.1 = p.1 := by
  induction l generalizing st with
  | nil => exact Or.inl h
  | cons item rest ih =>
    rcases item with ⟨⟨idx, row, endereco⟩, data⟩
    simp only [reconcileFrom] at h
    rcases ih _ h with h1 | h1
    · rcases hu : (processOne proj row data).1 with _ | u
      · rw [hu] at h1
        exact Or.inl h1
      · rw [hu] at h1
        rcases upsert_mem _ _ _ _ h1 with h2 | h2
        · exact Or.inr ⟨⟨⟨idx, row, endereco⟩, data⟩, List.mem_cons_self _ _, h2.symm⟩
        · exact Or.inl h2
    · rcases h1 with ⟨c, hc, hc1⟩
      exact Or.inr ⟨c, List.mem_cons_of_mem _ hc, hc1⟩

theorem reconcileFrom_rows (proj : ℚ → ℚ → ℚ × ℚ)
    (l : List ((Nat × Row × String) × J)) :
    ∀ st : List (Nat × String) × List Row × List String,
    (reconcileFrom proj st l).2.1
      = st.2.1 ++ l.flatMap (fun c => (processOne proj c.1.2.1 c.2).2.1) := by
  induction l with
  | nil => intro st; simp [reconcileFrom]
  | cons item rest ih =>
    intro st
    rcases item with ⟨⟨idx, row, endereco⟩, data⟩
    simp only [reconcileFrom, ih, List.flatMap_cons, List.append_assoc]

theorem reconcileFrom_const (proj : ℚ → ℚ → ℚ × ℚ)
    (l : List ((Nat × Row × String) × J)) :
    ∀ st : List (Nat × String) × List Row × List String,
    (∀ c ∈ l, processOne proj c.1.2.1 c.2 = (none, [], none)) →
    reconcileFrom proj st l = st := by
  induction l with
  | nil => intro st _; rfl
  | cons item rest ih =>
    intro st hall
    rcases item with ⟨⟨idx, row, endereco⟩, data⟩
    have h0 : processOne proj row data = (none, [], none) :=
      hall _ (List.mem_cons_self _ _)
    simp only [reconcileFrom, h0]
    have := ih st (fun c hc => hall c (List.mem_cons_of_mem _ hc))
    simpa using this

theorem reconcile_single_geo (proj : ℚ → ℚ → ℚ × ℚ) (i : Nat) (row : Row)
    (e : String) (c : ℚ × ℚ) (cs : List (ℚ × ℚ)) :
    reconcile proj [((i, row, e), geoData (c :: cs))]
      = ([(i, utmStr proj c)], cs.map (dupRow proj row), []) := by
  simp [reconcile, reconcileFrom, processOne_geoData, upsert]

theorem length_updateAt (rows : List Row) (i : Nat) (u : String) :
    (updateAt rows i u).length = rows.length := by
  induction rows generalizing i with
  | nil => rfl
  | cons r rest ih =>
    cases i with
    | zero => simp [updateAt]
    | succ n => simp [updateAt, ih]

theorem get_updateAt_ne (rows : List Row) (i j : Nat) (u : String)
    (h : j ≠ i) : (updateAt rows i u).get? j = rows.get? j := by
  induction rows generalizing i j with
  | nil => rfl
  | cons r rest ih =>
    cases i with
    | zero =>
      cases j with
      | zero => exact absurd rfl h
      | succ m => simp [updateAt]
    | succ n =>
      cases j with
      | zero => simp [updateAt]
      | succ m => simpa [updateAt] using ih n m (fun hh => h (by simp [hh]))

theorem get_updateAt_self (rows : List Row) (i : Nat) (u : String) :
    (updateAt rows i u).get? i
      = (rows.get? i).map (fun r => setCell r "the_geom" (Cell.str u)) := by
  induction rows generalizing i with
  | nil => rfl
  | cons r rest ih =>
    cases i with
    | zero => simp [updateAt]
    | succ n => simpa [updateAt] using ih n

theorem length_applyUpdates (rows : List Row) (updates : List (Nat × String)) :
    (applyUpdates rows updates).length = rows.length := by
  induction updates generalizing rows with
  | nil => rfl
  | cons p rest ih =>
    simp only [applyUpdates, List.foldl_cons] at ih ⊢
    rw [ih, length_updateAt]

theorem get_applyUpdates_nomem (rows : List Row)
    (updates : List (Nat × String)) (i : Nat)
    (h : ∀ p ∈ updates, p.1 ≠ i) :
    (applyUpdates rows updates).get? i = rows.get? i := by
  induction updates generalizing rows with
  | nil => rfl
  | cons p rest ih =>
    simp only [applyUpdates, List.foldl_cons] at ih ⊢
    rw [ih _ (fun q hq => h q (List.mem_cons_of_mem _ hq)),
      get_updateAt_ne _ _ _ _ (fun hh => h p (List.mem_cons_self _ _) hh.symm)]

theorem applyUpdates_single (rows : List Row) (i : Nat) (u : String) :
    applyUpdates rows [(i, u)] = updateAt rows i u := rfl

/-!
### Query-construction lemmas
-/

theorem rowsToProcessFrom_mem (rows : List Row) :
    ∀ (n : Nat) (qs : List (Nat × Row × String)),
    rowsToProcessFrom n rows = .ok qs →
    ∀ q ∈ qs, ∃ j r s, rows.get? j = some r
      ∧ q = (n + j, itRow (n + j) r, mkQuery s)
      ∧ Row.lookup r "the_geom" = some Cell.na
      ∧ Row.lookup r "endereco" = some (Cell.str s) := by
  induction rows with
  | nil =>
    intro n qs h q hq
    simp only [rowsToProcessFrom] at h
    cases h
    simp at hq
  | cons r0 rest ih =>
    intro n qs h q hq
    rcases hg : Row.lookup r0 "the_geom" with _ | g
    · simp [rowsToProcessFrom, hg] at h
    · by_cases hna : isna g = true
      · rcases he : Row.lookup r0 "endereco" with _ | c
        · simp [rowsToProcessFrom, hg, hna, he] at h
        · cases c with
          | na => simp [rowsToProcessFrom, hg, hna, he] at h
          | int m => simp [rowsToProcessFrom, hg, hna, he] at h
          | str s0 =>
            rcases hrec : rowsToProcessFrom (n + 1) rest with e | rest'
            · simp [rowsToProcessFrom, hg, hna, he, hrec] at h
            · have hqs : qs = (n, itRow n r0, mkQuery s0) :: rest' := by
                simp only [rowsToProcessFrom, hg, hna, he, hrec, if_true] at h
                exact (Except.ok.injEq _ _ ▸ h.symm)
              subst hqs
              rcases List.mem_cons.mp hq with hq1 | hq1
              · refine ⟨0, r0, s0, by simp, ?_, ?_, he⟩
                · simpa using hq1
                · have : isna g = true → g = Cell.na := by
                    cases g <;> simp [isna]
                  exact this hna ▸ hg
              · rcases ih (n + 1) rest' hrec q hq1 with ⟨j, r, s, h1, h2, h3, h4⟩
                refine ⟨j + 1, r, s, by simpa using h1, ?_, h3, h4⟩
                rw [h2]
                have : n + 1 + j = n + (j + 1) := by omega
                rw [this]
      · have hqs : rowsToProcessFrom (n + 1) rest = .ok qs := by
          simpa [rowsToProcessFrom, hg, hna] using h
        rcases ih (n + 1) qs hqs q hq with ⟨j, r, s, h1, h2, h3, h4⟩
        refine ⟨j + 1, r, s, by simpa using h1, ?_, h3, h4⟩
        rw [h2]
        have : n + 1 + j = n + (j + 1) := by omega
        rw [this]

theorem rowsToProcessFrom_filter (rows : List Row) :
    ∀ (n : Nat) (qs : List (Nat × Row × String)) (j : Nat) (r : Row) (s : String),
    rowsToProcessFrom n rows = .ok qs →
    rows.get? j = some r →
    Row.lookup r "the_geom" = some Cell.na →
    Row.lookup r "endereco" = some (Cell.str s) →
    qs.filter (fun q => q.1 == n + j) = [(n + j, itRow (n + j) r, mkQuery s)] := by
  induction rows with
  | nil => intro n qs j r s _ hj; simp at hj
  | cons r0 rest ih =>
    intro n qs j r s h hj hgeom hend
    cases j with
    | zero =>
      have hr0 : r0 = r := by simpa using hj
      subst hr0
      rcases hrec : rowsToProcessFrom (n + 1) rest with e | rest'
      · simp [rowsToProcessFrom, hgeom, isna, hend, hrec] at h
      · have hqs : qs = (n, itRow n r0, mkQuery s) :: rest' := by
          simp only [rowsToProcessFrom, hgeom, isna, if_true, hend, hrec] at h
          exact (Except.ok.injEq _ _ ▸ h.symm)
        subst hqs
        have hrest : rest'.filter (fun q => q.1 == n + 0) = [] := by
          refine List.filter_eq_nil_iff.mpr (fun q hq => ?_)
          rcases rowsToProcessFrom_mem rest (n + 1) rest' hrec q hq
            with ⟨j', r', s', _, h2, _, _⟩
          have : q.1 = n + 1 + j' := by rw [h2]
          simp only [this]
          have : ¬ (n + 1 + j' = n + 0) := by omega
          simpa using this
        simp only [Nat.add_zero] at hrest ⊢
        simp [List.filter_cons, hrest]
    | succ m =>
      have hjm : rest.get? m = some r := by simpa using hj
      rcases hg : Row.lookup r0 "the_geom" with _ | g
      · simp [rowsToProcessFrom, hg] at h
      · by_cases hna : isna g = true
        · rcases he : Row.lookup r0 "endereco" with _ | c
          · simp [rowsToProcessFrom, hg, hna, he] at h
          · cases c with
            | na => simp [rowsToProcessFrom, hg, hna, he] at h
            | int m2 => simp [rowsToProcessFrom, hg, hna, he] at h
            | str s0 =>
              rcases hrec : rowsToProcessFrom (n + 1) rest with e | rest'
              · simp [rowsToProcessFrom, hg, hna, he, hrec] at h
              · have hqs : qs = (n, itRow n r0, mkQuery s0) :: rest' := by
                  simp only [rowsToProcessFrom, hg, hna, he, hrec, if_true] at h
                  exact (Except.ok.injEq _ _ ▸ h.symm)
                subst hqs
                have hne : ¬ (n = n + (m + 1)) := by omega
                have hstep := ih (n + 1) rest' m r s hrec hjm hgeom hend
                have harith : n + 1 + m = n + (m + 1) := by omega
                rw [harith] at hstep
                have hb : (n == n + (m + 1)) = false := by simp [hne]
                simp [List.filter_cons, hb, hstep]
        · have hqs : rowsToProcessFrom (n + 1) rest = .ok qs := by
            simpa [rowsToProcessFrom, hg, hna] using h
          have hstep := ih (n + 1) qs m r s hqs hjm hgeom hend
          have harith : n + 1 + m = n + (m + 1) := by omega
          rw [harith] at hstep
          exact hstep

/-!
### Claim theorems
-/

/-- C5: for every address lookup, the Geocode Client returns an empty
result (`None`) on a non-success status code; on a raised transport error
it returns an empty result and logs a diagnostic naming the offending
query; on a body-decode failure it likewise returns an empty result with
a diagnostic — the failure never propagates out of `fetch_geocode`. -/
theorem C5_client_failure_containment (http : String → HttpOutcome)
    (endereco api_type : String) :
    (∀ e, http (fetchUrl api_type endereco) = .err e →
      fetch_geocode http endereco api_type
        = (J.null, ["Error fetching geocode for " ++ endereco ++ ": " ++ e]))
    ∧ (∀ status body, http (fetchUrl api_type endereco) = .resp status body →
        status ≠ 200 → fetch_geocode http endereco api_type = (J.null, []))
    ∧ (∀ e, http (fetchUrl api_type endereco) = .resp 200 (.error e) →
        fetch_geocode http endereco api_type
          = (J.null, ["Error fetching geocode for " ++ endereco ++ ": " ++ e])) := by
  refine ⟨?_, ?_, ?_⟩
  · intro e he
    simp [fetch_geocode, handleResp, he]
  · intro status body hr hs
    have hb : (status == 200) = false := by simp [hs]
    simp [fetch_geocode, handleResp, hr, hb]
  · intro e he
    simp [fetch_geocode, handleResp, he]

/-- C5 witness: the three failure modes at concrete transports. -/
theorem C5_client_failure_containment_witness :
    fetch_geocode httpErrEx "RUA X" "geoapify"
        = (J.null, ["Error fetching geocode for RUA X: timeout"])
    ∧ fetch_geocode http404Ex "RUA X" "geoapify" = (J.null, [])
    ∧ fetch_geocode httpDecodeErrEx "RUA X" "geoapify"
        = (J.null, ["Error fetching geocode for RUA X: JSONDecodeError"]) :=
  ⟨(C5_client_failure_containment httpErrEx "RUA X" "geoapify").1 "timeout" rfl,
   (C5_client_failure_containment http404Ex "RUA X" "geoapify").2.1 404 (.ok J.null) rfl
     (by decide),
   (C5_client_failure_containment httpDecodeErrEx "RUA X" "geoapify").2.2 "JSONDecodeError" rfl⟩

/-- C10: a provider tag not case-insensitively equal to `google` sends the
request to the Geoapify endpoint and returns the decoded body unmodified
with no normalization; a tag lowercasing to `google` selects the Google
endpoint and passes the body through the normalizer. -/
theorem C10_provider_dispatch (api_type : String) :
    (pyLower api_type ≠ "google" →
      (∀ endereco, fetchUrl api_type endereco
          = "http://localhost:8080/external/geocode-geoapify?address=" ++ endereco)
      ∧ ∀ (http : String → HttpOutcome) endereco body,
          http (fetchUrl api_type endereco) = .resp 200 (.ok body) →
          fetch_geocode http endereco api_type = (body, []))
    ∧ (pyLower api_type = "google" →
      (∀ endereco, fetchUrl api_type endereco
          = "http://localhost:8080/external/geocode?address=" ++ endereco)
      ∧ ∀ (http : String → HttpOutcome) endereco body,
          http (fetchUrl api_type endereco) = .resp 200 (.ok body) →
          fetch_geocode http endereco api_type
            = (match normalize_google_response body with
               | .ok v => (v, [])
               | .error e =>
                   (J.null,
                    ["Error fetching geocode for " ++ endereco ++ ": " ++ e]))) := by
  constructor
  · intro hng
    have hb : (pyLower api_type == "google") = false := by simp [hng]
    refine ⟨fun endereco => by simp [fetchUrl, hb], ?_⟩
    intro http endereco body hr
    simp [fetch_geocode, handleResp, hr, hb]
  · intro hg
    have hb : (pyLower api_type == "google") = true := by simp [hg]
    refine ⟨fun endereco => by simp [fetchUrl, hb], ?_⟩
    intro http endereco body hr
    rcases hn : normalize_google_response body with e | v
    · simp [fetch_geocode, handleResp, hr, hb, hn]
    · simp [fetch_geocode, handleResp, hr, hb, hn]

/-- C10 witness: the tag `GeoApify` keeps a Geoapify body untouched, and
the tag `Google` routes through the normalizer. -/
theorem C10_provider_dispatch_witness :
    fetch_geocode (httpRespEx badFeatureData) "RUA X" "GeoApify"
        = (badFeatureData, [])
    ∧ fetch_geocode (httpRespEx J.null) "RUA X" "Google" = (J.null, []) :=
  ⟨((C10_provider_dispatch "GeoApify").1 (by decide)).2
      (httpRespEx badFeatureData) "RUA X" badFeatureData rfl,
   ((C10_provider_dispatch "Google").2 (by decide)).2
      (httpRespEx J.null) "RUA X" J.null rfl⟩

/-- The normalizer loop on well-formed Google results: every result
becomes one feature with the coordinates reordered to
`[lng, lat]`, in result order. -/
theorem googleFeatures_wf (rs : List (ℚ × ℚ)) :
    googleFeatures (rs.map (fun p => gLoc p.1 p.2))
      = .ok (rs.map (fun p => gFeature p.2 p.1)) := by
  induction rs with
  | nil => rfl
  | cons p ps ih =>
    simp only [List.map_cons]
    show (googleFeatures (List.map (fun p => gLoc p.1 p.2) ps)).bind
        (fun restf => Except.ok (gFeature p.2 p.1 :: restf)) = _
    rw [ih]
    rfl

/-- C7: for every provider-B response whose results each expose a
location object with named `lat` and `lng` fields, the Response
Normalizer produces the features carrying the pairs reordered into
`(longitude, latitude)`, preserving result order. -/
theorem C7_google_reorder (rs : List (ℚ × ℚ)) (h : rs ≠ []) :
    normalize_google_response (gBody rs)
      = .ok (J.obj [("features", J.arr (rs.map (fun p => gFeature p.2 p.1)))]) := by
  rcases rs with _ | ⟨p, ps⟩
  · exact absurd rfl h
  · simp only [gBody, List.map_cons]
    show ((googleFeatures (gLoc p.1 p.2 :: List.map (fun p => gLoc p.1 p.2) ps)).bind
        (fun fs => Except.ok (J.obj [("features", J.arr fs)]))) = _
    rw [show gLoc p.1 p.2 :: List.map (fun p => gLoc p.1 p.2) ps
          = List.map (fun p => gLoc p.1 p.2) (p :: ps) from rfl, googleFeatures_wf]
    rfl

/-- C7 witness: two results, reordered and order-preserved. -/
theorem C7_google_reorder_witness :
    normalize_google_response (gBody [(-25.5, -51), (3, 4)])
      = .ok (J.obj [("features", J.arr [gFeature (-51) (-25.5), gFeature 4 3])]) :=
  C7_google_reorder [(-25.5, -51), (3, 4)] (by decide)

/-- One empty lookup result leaves the state of the completion loop
untouched: no update, no new row, no diagnostic. -/
theorem processOne_empty (proj : ℚ → ℚ → ℚ × ℚ) (row : Row) (d : J)
    (h : emptyResult d) : processOne proj row d = (none, [], none) := by
  rcases h with h | h
  · simp [processOne, h]
  · by_cases ht : d.truthy = true
    · simp [processOne, ht, h, pyIter, processFeatures]
    · simp [processOne, ht]

/-- C4: for every completed lookup whose result is empty (failure or no
match), the record set is unchanged — the originating record keeps its
unresolved geometry and no rows are appended; a whole batch of empty
results leaves the dataframe exactly as it was. -/
theorem C4_empty_result_no_change (proj : ℚ → ℚ → ℚ × ℚ) (cols : List String)
    (rows : List Row) (completed : List ((Nat × Row × String) × J))
    (h : ∀ c ∈ completed, emptyResult c.2) :
    mergePhase proj cols rows completed = (rows, [])
    ∧ ∀ c ∈ completed, processOne proj c.1.2.1 c.2 = (none, [], none) := by
  have hall : ∀ c ∈ completed, processOne proj c.1.2.1 c.2 = (none, [], none) :=
    fun c hc => processOne_empty proj c.1.2.1 c.2 (h c hc)
  refine ⟨?_, hall⟩
  have hrec : reconcile proj completed = ([], [], []) :=
    reconcileFrom_const proj completed ([], [], []) hall
  simp [mergePhase, hrec, applyUpdates, concatNewRows]

/-- C4 witness: a `None` result and a `features: []` result leave a
one-row dataframe untouched. -/
theorem C4_empty_result_no_change_witness :
    mergePhase projEx colsEx [rowEx]
        [((0, itRow 0 rowEx, "Q"), J.null),
         ((0, itRow 0 rowEx, "Q"), J.obj [("features", J.arr [])])]
      = ([rowEx], []) :=
  (C4_empty_result_no_change projEx colsEx [rowEx]
    [((0, itRow 0 rowEx, "Q"), J.null),
     ((0, itRow 0 rowEx, "Q"), J.obj [("features", J.arr [])])]
    (by
      intro c hc
      rcases List.mem_cons.mp hc with h | h
      · rw [h]; exact Or.inl rfl
      · rw [List.mem_singleton.mp h]; exact Or.inr rfl)).1

/-- C8: for every record lacking geometry, exactly one query is created,
carrying that record position, the `itertuples` namedtuple and the
normalized query string (the address with `-` and `P/` stripped and the
region suffix ` PARANA` appended); records with geometry produce no
query. -/
theorem C8_query_construction (rows : List Row) (qs : List (Nat × Row × String))
    (h : rowsToProcess rows = .ok qs) :
    (∀ i r s, rows.get? i = some r →
      Row.lookup r "the_geom" = some Cell.na →
      Row.lookup r "endereco" = some (Cell.str s) →
      qs.filter (fun q => q.1 == i) = [(i, itRow i r, mkQuery s)])
    ∧ (∀ i r c, rows.get? i = some r →
        Row.lookup r "the_geom" = some c → c ≠ Cell.na →
        ∀ q ∈ qs, q.1 ≠ i) := by
  constructor
  · intro i r s h1 h2 h3
    have hf := rowsToProcessFrom_filter rows 0 qs i r s h h1 h2 h3
    simpa using hf
  · intro i r c h1 h2 hc q hq hqi
    rcases rowsToProcessFrom_mem rows 0 qs h q hq with ⟨j, r', s', hj, hqe, hg, _⟩
    have hq1 : q.1 = j := by rw [hqe]; simp
    rw [hq1] at hqi
    subst hqi
    rw [h1] at hj
    have hr : r' = r := by
      cases hj
      rfl
    rw [hr] at hg
    rw [h2] at hg
    exact hc (by cases hg; rfl)

/-- C8 witness: a two-row frame where only the second row lacks geometry
produces exactly one query for position 1 and none for position 0. -/
theorem C8_query_construction_witness :
    List.filter (fun q => q.1 == 1)
        [((1 : Nat), itRow 1 rowEx, mkQuery "RUA A, 10 - PARANA")]
      = [(1, itRow 1 rowEx, mkQuery "RUA A, 10 - PARANA")]
    ∧ ∀ q ∈ [((1 : Nat), itRow 1 rowEx, mkQuery "RUA A, 10 - PARANA")], q.1 ≠ 0 := by
  have h := C8_query_construction [rowGeomEx, rowEx]
    [(1, itRow 1 rowEx, mkQuery "RUA A, 10 - PARANA")] rfl
  exact ⟨h.1 1 rowEx "RUA A, 10 - PARANA" rfl rfl rfl,
    fun q hq => h.2 0 rowGeomEx (Cell.str "POINT(1 2)") rfl rfl (by decide) q hq⟩

/-- Unfolding of the pipeline once the query list is known. -/
theorem runPipeline_ok (proj : ℚ → ℚ → ℚ × ℚ) (http : String → HttpOutcome)
    (api : String) (cols : List String) (rows : List Row)
    (qs : List (Nat × Row × String)) (h : rowsToProcess rows = .ok qs) :
    runPipeline proj http api cols rows = .ok
      ((mergePhase proj cols rows
          (qs.map (fun q => (q, (fetch_geocode http q.2.2 api).1)))).1,
       qs.flatMap (fun q => (fetch_geocode http q.2.2 api).2)
         ++ (mergePhase proj cols rows
              (qs.map (fun q => (q, (fetch_geocode http q.2.2 api).1)))).2) := by
  have h1 : runPipeline proj http api cols rows = .ok
      ((mergePhase proj cols rows
          ((qs.map (fun q => (q, fetch_geocode http q.2.2 api))).map
            (fun p => (p.1, p.2.1)))).1,
       (qs.map (fun q => (q, fetch_geocode http q.2.2 api))).flatMap
            (fun p => p.2.2)
         ++ (mergePhase proj cols rows
              ((qs.map (fun q => (q, fetch_geocode http q.2.2 api))).map
                (fun p => (p.1, p.2.1)))).2) := by
    simp only [runPipeline, h]
    rfl
  rw [h1, List.map_map, List.flatMap_map]
  rfl

/-- C2: every coordinate pair `[lon, lat]` taken from a response is
written as the projection of that geographic point into the target
planar system, serialized as the literal `POINT(x y)`; in the scenario
of one record with empty geometry and address `RUA A, 10 - PARANA` and a
single provider-A feature at `[-51.0, -25.5]`, the output record's
geometry is the projected form of latitude `-25.5`, longitude `-51.0`,
and no rows are added. -/
theorem C2_projection_scenario (proj : ℚ → ℚ → ℚ × ℚ)
    (http : String → HttpOutcome)
    (h : http (fetchUrl "geoapify" (mkQuery "RUA A, 10 - PARANA"))
        = .resp 200 (.ok (geoData [(-51, -25.5)]))) :
    (∀ la lo : ℚ, convert_lat_lon_to_UTM proj (J.num la) (J.num lo)
        = .ok (utmStr proj (lo, la)))
    ∧ runPipeline proj http "geoapify" colsEx [rowEx]
        = .ok ([[("endereco", Cell.str "RUA A, 10 - PARANA"),
                 ("the_geom", Cell.str (utmStr proj (-51, -25.5)))]], []) := by
  refine ⟨fun la lo => rfl, ?_⟩
  have hq : rowsToProcess [rowEx]
      = .ok [(0, itRow 0 rowEx, mkQuery "RUA A, 10 - PARANA")] := rfl
  have hf : fetch_geocode http (mkQuery "RUA A, 10 - PARANA") "geoapify"
      = (geoData [(-51, -25.5)], []) := by
    have hb : (pyLower "geoapify" == "google") = false := rfl
    simp [fetch_geocode, handleResp, h, hb]
  rw [runPipeline_ok proj http "geoapify" colsEx [rowEx] _ hq]
  simp only [List.map_cons, List.map_nil, List.flatMap_cons, List.flatMap_nil, hf]
  rw [show geoData [(-51, -25.5)] = geoData ((-51, -25.5) :: []) from rfl]
  simp only [mergePhase, reconcile_single_geo, List.map_nil]
  rfl

/-- C2 witness: the scenario at a concrete projection and transport. -/
theorem C2_projection_scenario_witness :
    runPipeline projEx (httpRespEx (geoData [(-51, -25.5)])) "geoapify"
        colsEx [rowEx]
      = .ok ([[("endereco", Cell.str "RUA A, 10 - PARANA"),
               ("the_geom", Cell.str (utmStr projEx (-51, -25.5)))]], [])
    ∧ convert_lat_lon_to_UTM projEx (J.num (-25.5)) (J.num (-51))
        = .ok (utmStr projEx (-51, -25.5)) :=
  ⟨(C2_projection_scenario projEx (httpRespEx (geoData [(-51, -25.5)])) rfl).2,
   (C2_projection_scenario projEx (httpRespEx (geoData [(-51, -25.5)])) rfl).1 (-25.5) (-51)⟩

/-!
### Concatenation lemmas
-/

theorem lookup_append_of_isSome (r t : Row) (k : String) (v : Cell)
    (h : Row.lookup r k = some v) : Row.lookup (r ++ t) k = some v := by
  induction r with
  | nil => simp [Row.lookup] at h
  | cons p rest ih =>
    by_cases hp : (p.1 == k) = true
    · simp only [Row.lookup, hp, if_true] at h
      simp [Row.lookup, hp, h]
    · simp only [Row.lookup, hp] at h
      simpa [Row.lookup, hp] using ih h

theorem setCell_cons_ne (k0 k : String) (w v : Cell) (r : Row)
    (h : (k0 == k) = false) :
    setCell ((k0, w) :: r) k v = (k0, w) :: setCell r k v := by
  simp [setCell, h]

theorem keys_itRow (i : Nat) (r : Row) :
    Row.keys (itRow i r) = "Index" :: Row.keys r := by
  simp [itRow, Row.keys]

theorem newCols_eq (cols : List String) (hI : "Index" ∉ cols) :
    ("Index" :: cols).filter (fun k => !cols.contains k) = ["Index"] := by
  have h2 : cols.filter (fun k => !cols.contains k) = [] :=
    List.filter_eq_nil_iff.mpr (fun k hk => by simp [hk])
  simp [List.filter_cons, hI, h2]

theorem reorder_pad (r : Row) (cols : List String) (hk : Row.keys r = cols)
    (hnd : cols.Nodup) (hI : "Index" ∉ cols) :
    reorder (cols ++ ["Index"]) r = r ++ [("Index", Cell.na)] := by
  rw [reorder_append, reorder_self r cols hk hnd]
  have hnone : Row.lookup r "Index" = none :=
    (lookup_none_iff r "Index").mpr (hk ▸ hI)
  simp [reorder, hnone]

theorem reorder_clone (rr : Row) (cols : List String) (w : Cell)
    (hk : Row.keys rr = cols) (hnd : cols.Nodup) (hI : "Index" ∉ cols) :
    reorder (cols ++ ["Index"]) (("Index", w) :: rr) = rr ++ [("Index", w)] := by
  rw [reorder_append, reorder_cons_notmem _ _ _ _ hI, reorder_self rr cols hk hnd]
  simp [reorder, Row.lookup]

/-- C1: a completed lookup with a non-empty sequence of coordinate pairs
reprojects the first pair into the originating record's geometry cell in
place (keyed by its position), and appends, for each later pair, a
brand-new row that is the shallow copy of the originating namedtuple with
only the geometry replaced by that pair's reprojection: the output has
exactly `k - 1` extra rows, the record at position `i` carries the first
pair's serialization, the appended rows carry the later pairs' in order,
and overwriting the geometry of a copy changes no other attribute. -/
theorem C1_merge_policy (proj : ℚ → ℚ → ℚ × ℚ) (cols : List String)
    (rows : List Row) (i : Nat) (r : Row) (e : String)
    (c : ℚ × ℚ) (cs : List (ℚ × ℚ))
    (hnd : cols.Nodup) (hI : "Index" ∉ cols)
    (hsch : ∀ rr ∈ rows, Row.keys rr = cols)
    (hgc : "the_geom" ∈ cols)
    (hr : rows.get? i = some r) :
    (pipelineOut proj cols rows [((i, itRow i r, e), geoData (c :: cs))]).length
        = rows.length + cs.length
    ∧ cellAt (pipelineOut proj cols rows [((i, itRow i r, e), geoData (c :: cs))])
        i "the_geom" = some (Cell.str (utmStr proj c))
    ∧ (∀ j, (pipelineOut proj cols rows
            [((i, itRow i r, e), geoData (c :: cs))]).get? (rows.length + j)
        = (cs.get? j).map (fun c2 =>
            setCell r "the_geom" (Cell.str (utmStr proj c2)) ++ [("Index", Cell.int i)]))
    ∧ (∀ (v : Cell) (k : String), k ≠ "the_geom" →
        Row.lookup (setCell r "the_geom" v) k = Row.lookup r k) := by
  have hkr : Row.keys r = cols := hsch r (List.get?_mem hr)
  have hmemg : "the_geom" ∈ Row.keys r := by rw [hkr]; exact hgc
  have hks : ∀ v, Row.keys (setCell r "the_geom" v) = cols :=
    fun v => by rw [keys_setCell_mem r _ v hmemg, hkr]
  have hilen : i < rows.length := by
    by_contra hge
    rw [List.get?_eq_none.mpr (by omega)] at hr
    cases hr
  have hm : pipelineOut proj cols rows [((i, itRow i r, e), geoData (c :: cs))]
      = concatNewRows cols (updateAt rows i (utmStr proj c))
          (cs.map (dupRow proj (itRow i r))) := by
    simp [pipelineOut, mergePhase, reconcile_single_geo, applyUpdates]
  rcases cs with _ | ⟨c2, cs'⟩
  · simp only [List.map_nil] at hm
    rw [show concatNewRows cols (updateAt rows i (utmStr proj c)) []
          = updateAt rows i (utmStr proj c) from rfl] at hm
    refine ⟨?_, ?_, ?_, fun v k hk => lookup_setCell_ne r "the_geom" k v hk⟩
    · rw [hm, length_updateAt]; simp
    · rw [hm]
      unfold cellAt
      rw [get_updateAt_self, hr]
      simp [lookup_setCell_self]
    · intro j
      rw [hm]
      rw [List.get?_eq_none.mpr (by rw [length_updateAt]; omega)]
      simp
  · have hdup : ∀ c3 : ℚ × ℚ, dupRow proj (itRow i r) c3
        = ("Index", Cell.int i) :: setCell r "the_geom" (Cell.str (utmStr proj c3)) := by
      intro c3
      simp [dupRow, itRow, setCell]
    have hkeysnr : Row.keys (dupRow proj (itRow i r) c2) = "Index" :: cols := by
      rw [hdup c2, Row.keys, List.map_cons]
      have := hks (Cell.str (utmStr proj c2))
      rw [Row.keys] at this
      rw [this]
    have hout : concatNewRows cols (updateAt rows i (utmStr proj c))
          (List.map (dupRow proj (itRow i r)) (c2 :: cs'))
        = (updateAt rows i (utmStr proj c)).map (reorder (cols ++ ["Index"]))
          ++ (List.map (dupRow proj (itRow i r)) (c2 :: cs')).map
              (reorder (cols ++ ["Index"])) := by
      simp only [List.map_cons, concatNewRows]
      rw [hkeysnr, newCols_eq cols hI]
    rw [hout] at hm
    have hcell : ∀ c3 : ℚ × ℚ, reorder (cols ++ ["Index"]) (dupRow proj (itRow i r) c3)
        = setCell r "the_geom" (Cell.str (utmStr proj c3)) ++ [("Index", Cell.int i)] := by
      intro c3
      rw [hdup c3, reorder_clone _ cols _ (hks _) hnd hI]
    refine ⟨?_, ?_, ?_, fun v k hk => lookup_setCell_ne r "the_geom" k v hk⟩
    · rw [hm]
      simp [length_updateAt]
    · rw [hm]
      unfold cellAt
      rw [List.get?_append (by simp [length_updateAt, hilen]), List.get?_map,
        get_updateAt_self, hr]
      show Row.lookup (reorder (cols ++ ["Index"])
        (setCell r "the_geom" (Cell.str (utmStr proj c)))) "the_geom" = _
      rw [reorder_pad _ cols (hks _) hnd hI]
      exact lookup_append_of_isSome _ _ _ _ (lookup_setCell_self r _ _)
    · intro j
      rw [hm, List.get?_append_right (by simp [length_updateAt])]
      simp only [List.length_map, length_updateAt, Nat.add_sub_cancel_left,
        List.map_map, List.get?_map]
      rcases hj : (c2 :: cs').get? j with _ | c3
      · rfl
      · simp [Function.comp, hcell c3]

/-- C1 witness: a lookup returning two pairs for the second of two rows
makes a 3-row output with the update in place and one appended clone. -/
theorem C1_merge_policy_witness :
    (pipelineOut projEx colsEx [rowGeomEx, rowEx]
        [((1, itRow 1 rowEx, "Q"), geoData ((0, 0) :: [(1, 1)]))]).length = 3
    ∧ cellAt (pipelineOut projEx colsEx [rowGeomEx, rowEx]
        [((1, itRow 1 rowEx, "Q"), geoData ((0, 0) :: [(1, 1)]))]) 1 "the_geom"
      = some (Cell.str (utmStr projEx (0, 0)))
    ∧ (pipelineOut projEx colsEx [rowGeomEx, rowEx]
        [((1, itRow 1 rowEx, "Q"), geoData ((0, 0) :: [(1, 1)]))]).get? (2 + 0)
      = some (setCell rowEx "the_geom" (Cell.str (utmStr projEx (1, 1)))
          ++ [("Index", Cell.int 1)]) := by
  have h := C1_merge_policy projEx colsEx [rowGeomEx, rowEx] 1 rowEx "Q" (0, 0) [(1, 1)]
    (by decide) (by decide) (by decide) (by decide) rfl
  exact ⟨h.1, h.2.1, h.2.2.1 0⟩

/-!
### Clone-shape lemmas
-/

theorem exceptBind_ok {α β : Type} (a : α) (f : α → Except String β) :
    (Except.ok a : Except String α) >>= f = f a := rfl

theorem exceptBind_err {α β : Type} (e : String) (f : α → Except String β) :
    (Except.error e : Except String α) >>= f = Except.error e := rfl

theorem exceptPure {α : Type} (a : α) :
    (pure a : Except String α) = Except.ok a := rfl

theorem keys_reorder (cols : List String) (r : Row) :
    Row.keys (reorder cols r) = cols := by
  simp only [reorder, Row.keys, List.map_map]
  exact List.map_id cols

theorem duplicate_row_shape (proj : ℚ → ℚ → ℚ × ℚ) (row : Row) (coords : J)
    (r2 : Row) (h : duplicate_row_with_new_UTM proj row coords = .ok r2) :
    ∃ utm, r2 = setCell row "the_geom" (Cell.str utm) := by
  unfold duplicate_row_with_new_UTM at h
  rcases h1 : pyIndexNat coords 1 with e | c1
  · rw [h1, exceptBind_err] at h; cases h
  · rw [h1, exceptBind_ok] at h
    rcases h2 : pyIndexNat coords 0 with e | c0
    · rw [h2, exceptBind_err] at h; cases h
    · rw [h2, exceptBind_ok] at h
      rcases h3 : convert_lat_lon_to_UTM proj c1 c0 with e | utm
      · rw [h3, exceptBind_err] at h; cases h
      · rw [h3, exceptBind_ok, exceptPure] at h
        cases h
        exact ⟨utm, rfl⟩

theorem handleFeature_inr_shape (proj : ℚ → ℚ → ℚ × ℚ) (row : Row) (i : Nat)
    (f : J) (r2 : Row) (h : handleFeature proj row i f = .ok (.inr r2)) :
    ∃ utm, r2 = setCell row "the_geom" (Cell.str utm) := by
  unfold handleFeature at h
  rcases h1 : pyGet f "geometry" with e | g
  · rw [h1, exceptBind_err] at h; cases h
  · rw [h1, exceptBind_ok] at h
    rcases h2 : pyGet g "coordinates" with e | coords
    · rw [h2, exceptBind_err] at h; cases h
    · rw [h2, exceptBind_ok] at h
      by_cases hi : (i == 0) = true
      · rw [if_pos hi] at h
        rcases h3 : pyIndexNat coords 1 with e | c1
        · rw [h3, exceptBind_err] at h; cases h
        · rw [h3, exceptBind_ok] at h
          rcases h4 : pyIndexNat coords 0 with e | c0
          · rw [h4, exceptBind_err] at h; cases h
          · rw [h4, exceptBind_ok] at h
            rcases h5 : convert_lat_lon_to_UTM proj c1 c0 with e | utm
            · rw [h5, exceptBind_err] at h; cases h
            · rw [h5, exceptBind_ok, exceptPure] at h
              cases h
      · rw [if_neg hi] at h
        rcases h3 : duplicate_row_with_new_UTM proj row coords with e | r3
        · rw [h3, exceptBind_err] at h; cases h
        · rw [h3, exceptBind_ok, exceptPure] at h
          cases h
          exact duplicate_row_shape proj row coords _ h3

theorem processFeatures_rows_shape (proj : ℚ → ℚ → ℚ × ℚ) (row : Row) :
    ∀ (fs : List J) (i : Nat) (upd : Option String) (acc : List Row),
    ∀ r' ∈ (processFeatures proj row i fs upd acc).2.1,
    r' ∈ acc ∨ ∃ utm, r' = setCell row "the_geom" (Cell.str utm) := by
  intro fs
  induction fs with
  | nil => intro i upd acc r' h; exact Or.inl h
  | cons f rest ih =>
    intro i upd acc r' h
    rcases hh : handleFeature proj row i f with e | v
    · rw [processFeatures, hh] at h
      exact Or.inl h
    · rcases v with utm | r2
      · rw [processFeatures, hh] at h
        exact ih (i + 1) (some utm) acc r' h
      · rw [processFeatures, hh] at h
        rcases ih (i + 1) upd (acc ++ [r2]) r' h with h1 | h1
        · rcases List.mem_append.mp h1 with h2 | h2
          · exact Or.inl h2
          · exact Or.inr (handleFeature_inr_shape proj row i f r2 hh
              |>.imp (fun utm he => by rw [List.mem_singleton.mp h2, he]))
        · exact Or.inr h1

theorem processOne_rows_shape (proj : ℚ → ℚ → ℚ × ℚ) (row : Row) (data : J)
    (r' : Row) (h : r' ∈ (processOne proj row data).2.1) :
    ∃ utm, r' = setCell row "the_geom" (Cell.str utm) := by
  unfold processOne at h
  by_cases ht : data.truthy = true
  · rw [if_pos ht] at h
    rcases h1 : pyGetD data "features" (J.arr []) with e | fsJ
    · rw [h1] at h; simp at h
    · rcases h2 : pyIter fsJ with e | fs
      · simp only [h1, h2] at h
        simp at h
      · simp only [h1, h2] at h
        rcases processFeatures_rows_shape proj row fs 0 none [] r' h with h3 | h3
        · simp at h3
        · exact h3
  · rw [if_neg ht] at h
    simp at h

/-- C9: the cloned-row function returns a mapping holding, besides every
column of the input row, an extra `Index` key with the row's original
position; consequently, as soon as one lookup yields more than one pair,
every output row carries an `Index` column absent from the input
schema. -/
theorem C9_index_column (proj : ℚ → ℚ → ℚ × ℚ) (cols : List String)
    (rows : List Row) (completed : List ((Nat × Row × String) × J))
    (qs : List (Nat × Row × String)) (item : Nat × Row × String)
    (c2 : ℚ × ℚ) (cs : List (ℚ × ℚ))
    (hnd : cols.Nodup) (hI : "Index" ∉ cols)
    (hsch : ∀ rr ∈ rows, Row.keys rr = cols)
    (hgc : "the_geom" ∈ cols)
    (hq : rowsToProcess rows = .ok qs)
    (hmem : ∀ c ∈ completed, c.1 ∈ qs)
    (hitem : (item, geoData (c2 :: cs)) ∈ completed) (hcs : cs ≠ []) :
    (∀ (i : Nat) (r : Row) (coords : J) (out : Row),
        "the_geom" ∈ Row.keys r →
        duplicate_row_with_new_UTM proj (itRow i r) coords = .ok out →
        Row.lookup out "Index" = some (Cell.int i)
        ∧ Row.keys out = "Index" :: Row.keys r
        ∧ ∀ k, k ≠ "the_geom" → k ≠ "Index" →
            Row.lookup out k = Row.lookup r k)
    ∧ ∀ r' ∈ pipelineOut proj cols rows completed,
        Row.keys r' = cols ++ ["Index"] := by
  constructor
  · intro i r coords out hg hdup
    rcases duplicate_row_shape proj (itRow i r) coords out hdup with ⟨utm, hout⟩
    have hsplit : out = ("Index", Cell.int i) :: setCell r "the_geom" (Cell.str utm) := by
      rw [hout]; simp [itRow, setCell]
    refine ⟨?_, ?_, ?_⟩
    · rw [hsplit]; simp [Row.lookup]
    · rw [hsplit]
      have h2 := keys_setCell_mem r "the_geom" (Cell.str utm) hg
      simp only [Row.keys, List.map_cons] at h2 ⊢
      rw [h2]
    · intro k hk1 hk2
      rw [hsplit, lookup_cons_ne _ _ _ _ (Ne.symm hk2),
        lookup_setCell_ne r _ _ _ hk1]
  · have hnew : (reconcile proj completed).2.1
        = completed.flatMap (fun c => (processOne proj c.1.2.1 c.2).2.1) := by
      have h0 := reconcileFrom_rows proj completed ([], [], [])
      simpa [reconcile] using h0
    have hshape : ∀ r' ∈ (reconcile proj completed).2.1,
        Row.keys r' = "Index" :: cols := by
      intro r' hr'
      rw [hnew] at hr'
      rcases List.mem_flatMap.mp hr' with ⟨citem, hc, hrc⟩
      rcases processOne_rows_shape proj citem.1.2.1 citem.2 r' hrc with ⟨utm, hr2⟩
      rcases rowsToProcessFrom_mem rows 0 qs hq citem.1 (hmem citem hc)
        with ⟨j, rbase, s, hjr, hq2, _, _⟩
      have hrow : citem.1.2.1 = itRow (0 + j) rbase := by rw [hq2]
      have hkb : Row.keys rbase = cols := hsch rbase (List.get?_mem hjr)
      have hgb : "the_geom" ∈ Row.keys (itRow (0 + j) rbase) := by
        rw [keys_itRow, hkb]
        exact List.mem_cons_of_mem _ hgc
      rw [hr2, hrow, keys_setCell_mem _ _ _ hgb, keys_itRow, hkb]
    have hne : (reconcile proj completed).2.1 ≠ [] := by
      rcases cs with _ | ⟨c3, cs'⟩
      · exact absurd rfl hcs
      · intro hnil
        have hm2 : dupRow proj item.2.1 c3
            ∈ completed.flatMap (fun c => (processOne proj c.1.2.1 c.2).2.1) := by
          apply List.mem_flatMap.mpr
          refine ⟨(item, geoData (c2 :: c3 :: cs')), hitem, ?_⟩
          rw [processOne_geoData]
          exact List.mem_cons_self _ _
        rw [← hnew, hnil] at hm2
        simp at hm2
    rcases hsplitn : (reconcile proj completed).2.1 with _ | ⟨nr, t⟩
    · exact absurd hsplitn hne
    · intro r' hr'
      have hknr : Row.keys nr = "Index" :: cols :=
        hshape nr (by rw [hsplitn]; exact List.mem_cons_self _ _)
      have hout2 : pipelineOut proj cols rows completed
          = (applyUpdates rows (reconcile proj completed).1).map
              (reorder (cols ++ ["Index"]))
            ++ (nr :: t).map (reorder (cols ++ ["Index"])) := by
        simp only [pipelineOut, mergePhase, hsplitn, concatNewRows]
        rw [hknr, newCols_eq cols hI]
      rw [hout2] at hr'
      rcases List.mem_append.mp hr' with h2 | h2
      · rcases List.mem_map.mp h2 with ⟨x, _, hx⟩
        rw [← hx, keys_reorder]
      · rcases List.mem_map.mp h2 with ⟨x, _, hx⟩
        rw [← hx, keys_reorder]

/-- C9 witness: after one two-pair lookup, the first output row is the
untouched input row extended with the `Index` column, whose key list is
the input schema plus `Index`. -/
theorem C9_index_column_witness :
    (pipelineOut projEx colsEx [rowGeomEx, rowEx]
        [((1, itRow 1 rowEx, mkQuery "RUA A, 10 - PARANA"),
          geoData [(0, 0), (1, 1)])]).get? 0
      = some (rowGeomEx ++ [("Index", Cell.na)])
    ∧ Row.keys (rowGeomEx ++ [("Index", Cell.na)]) = colsEx ++ ["Index"] := by
  have h := C9_index_column projEx colsEx [rowGeomEx, rowEx]
    [((1, itRow 1 rowEx, mkQuery "RUA A, 10 - PARANA"), geoData [(0, 0), (1, 1)])]
    [(1, itRow 1 rowEx, mkQuery "RUA A, 10 - PARANA")]
    (1, itRow 1 rowEx, mkQuery "RUA A, 10 - PARANA") (0, 0) [(1, 1)]
    (by decide) (by decide) (by decide) (by decide) rfl
    (by intro c hc; rw [List.mem_singleton.mp hc]; exact List.mem_cons_self _ _)
    (List.mem_cons_self _ _) (by decide)
  have hg0 : (pipelineOut projEx colsEx [rowGeomEx, rowEx]
      [((1, itRow 1 rowEx, mkQuery "RUA A, 10 - PARANA"),
        geoData [(0, 0), (1, 1)])]).get? 0
      = some (rowGeomEx ++ [("Index", Cell.na)]) := rfl
  exact ⟨hg0, h.2 (rowGeomEx ++ [("Index", Cell.na)]) (List.get?_mem hg0)⟩

/-- C6 counterexample: a Geoapify body whose single feature lacks
`geometry` is not normalized to an empty sequence — the client returns it
unmodified, and processing it raises an `AttributeError` inside the
reconciliation loop, whose per-record handler catches and logs it. -/
theorem C6_counterexample :
    processOne projEx (itRow 0 rowEx) badFeatureData
        = (none, [], some "AttributeError")
    ∧ reconcile projEx [((0, itRow 0 rowEx, "Q"), badFeatureData)]
        = ([], [], ["Error processing Q: AttributeError"])
    ∧ fetch_geocode (httpRespEx badFeatureData) "Q" "geoapify"
        = (badFeatureData, []) :=
  ⟨rfl, rfl, rfl⟩

/-- C6 amended: a falsy body or an empty `features` list leaves the state
untouched; for provider B the normalizer's outcome is always empty
(`None`), a well-shaped `features` object, or an exception that the
Geocode Client itself catches and downgrades to `None`; for provider A a
malformed feature is not downgraded — it raises at its position inside
the reconciliation loop, which catches it per record, keeping the effects
of the features before it. -/
theorem C6_amended_normalization (proj : ℚ → ℚ → ℚ × ℚ) (row : Row) :
    (∀ data : J, data.truthy = false → processOne proj row data = (none, [], none))
    ∧ (∀ data : J, pyGetD data "features" (J.arr []) = .ok (J.arr []) →
        processOne proj row data = (none, [], none))
    ∧ (∀ (http : String → HttpOutcome) (endereco : String) (body : J) (e : String),
        normalize_google_response body = .error e →
        http (fetchUrl "google" endereco) = .resp 200 (.ok body) →
        fetch_geocode http endereco "google"
          = (J.null, ["Error fetching geocode for " ++ endereco ++ ": " ++ e]))
    ∧ (∀ (body v : J), normalize_google_response body = .ok v →
        v = J.null ∨ ∃ fs, v = J.obj [("features", J.arr fs)])
    ∧ (∀ (c : ℚ × ℚ) (cs : List (ℚ × ℚ)) (f : J) (rest : List J) (e : String),
        handleFeature proj row (cs.length + 1) f = .error e →
        processOne proj row
            (featuresData (((c :: cs).map (fun p => gFeature p.1 p.2)) ++ f :: rest))
          = (some (utmStr proj c), cs.map (dupRow proj row), some e)) := by
  refine ⟨?_, ?_, ?_, ?_, ?_⟩
  · intro data h
    simp [processOne, h]
  · intro data h
    by_cases ht : data.truthy = true
    · simp [processOne, ht, h, pyIter, processFeatures]
    · simp [processOne, ht]
  · intro http endereco body e hn hh
    have hb : (pyLower "google" == "google") = true := rfl
    simp [fetch_geocode, handleResp, hh, hb, hn]
  · intro body v h
    unfold normalize_google_response at h
    by_cases ht : body.truthy = true
    · simp only [ht, if_true] at h
      rcases h1 : pyIn "results" body with e | b
      · rw [h1, exceptBind_err] at h; cases h
      · rw [h1, exceptBind_ok] at h
        by_cases hbb : b = true
        · subst hbb
          simp only [if_true] at h
          rcases h2 : pyIndexKey body "results" with e | results
          · rw [h2, exceptBind_err] at h; cases h
          · rw [h2, exceptBind_ok, exceptPure, exceptBind_ok] at h
            by_cases htr : results.truthy = true
            · rw [if_pos htr, exceptBind_ok] at h
              rcases h3 : pyIter results with e | items
              · rw [h3, exceptBind_err] at h; cases h
              · rw [h3, exceptBind_ok] at h
                rcases h4 : googleFeatures items with e | fs
                · rw [h4, exceptBind_err] at h; cases h
                · rw [h4, exceptBind_ok, exceptPure] at h
                  cases h
                  exact Or.inr ⟨fs, rfl⟩
            · rw [if_neg htr, exceptPure] at h
              cases h
              exact Or.inl rfl
        · have hbf : b = false := by
            cases b
            · rfl
            · exact absurd rfl hbb
          subst hbf
          simp only [Bool.false_eq_true, if_false, exceptPure, exceptBind_ok] at h
          cases h
          exact Or.inl rfl
    · have htf : body.truthy = false := by
        cases hx : body.truthy
        · rfl
        · exact absurd hx ht
      simp only [htf, Bool.false_eq_true, if_false, exceptPure, exceptBind_ok] at h
      cases h
      exact Or.inl rfl
  · intro c cs f rest e h
    exact processOne_geoData_bad proj row c cs f rest e h

/-- C6 amended witness: a `None` body does nothing, and a good feature
followed by a malformed one applies the good update, clones nothing, and
leaves the caught exception in the loop. -/
theorem C6_amended_normalization_witness :
    processOne projEx (itRow 0 rowEx) J.null = (none, [], none)
    ∧ processOne projEx (itRow 0 rowEx)
        (featuresData ((([((0 : ℚ), (0 : ℚ))]).map (fun p => gFeature p.1 p.2))
          ++ J.obj [] :: []))
      = (some (utmStr projEx (0, 0)), [], some "AttributeError") := by
  have h := C6_amended_normalization projEx (itRow 0 rowEx)
  exact ⟨h.1 J.null rfl,
    h.2.2.2.2 (0, 0) [] (J.obj []) [] "AttributeError" rfl⟩

theorem lookup_append_single_ne (r : Row) (k0 : String) (v0 : Cell) (k : String)
    (h : k ≠ k0) : Row.lookup (r ++ [(k0, v0)]) k = Row.lookup r k := by
  induction r with
  | nil => simp [Row.lookup, Ne.symm h]
  | cons p rest ih =>
    by_cases hp : (p.1 == k) = true
    · simp [Row.lookup, hp]
    · simp [Row.lookup, hp, ih]

/-- C3 counterexample: with one clone-producing lookup elsewhere in the
frame, the record that already had geometry is not byte-identical in the
output — it gains an empty `Index` cell from the concat alignment. -/
theorem C3_counterexample :
    Row.lookup rowGeomEx "the_geom" = some (Cell.str "POINT(1 2)")
    ∧ (pipelineOut projEx colsEx [rowGeomEx, rowEx]
        [((1, itRow 1 rowEx, "Q"), geoData [(0, 0), (1, 1)])]).get? 0
      = some (rowGeomEx ++ [("Index", Cell.na)])
    ∧ (pipelineOut projEx colsEx [rowGeomEx, rowEx]
        [((1, itRow 1 rowEx, "Q"), geoData [(0, 0), (1, 1)])]).get? 0
      ≠ some rowGeomEx := by
  have h2 : (pipelineOut projEx colsEx [rowGeomEx, rowEx]
      [((1, itRow 1 rowEx, "Q"), geoData [(0, 0), (1, 1)])]).get? 0
      = some (rowGeomEx ++ [("Index", Cell.na)]) := rfl
  refine ⟨rfl, h2, ?_⟩
  rw [h2]
  decide

/-- C3 amended: a record with non-empty geometry is never queried, never
dispatched and its geometry is never overwritten; every cell of every
input column is unchanged in the output, and the row is byte-identical
whenever no lookup appends clone rows — but when clones are appended the
row additionally gains an empty cell in the new `Index` column. -/
theorem C3_amended_frame (proj : ℚ → ℚ → ℚ × ℚ) (cols : List String)
    (rows : List Row) (completed : List ((Nat × Row × String) × J))
    (qs : List (Nat × Row × String)) (i : Nat) (r : Row) (s : String)
    (hnd : cols.Nodup) (hI : "Index" ∉ cols)
    (hsch : ∀ rr ∈ rows, Row.keys rr = cols)
    (hgc : "the_geom" ∈ cols)
    (hq : rowsToProcess rows = .ok qs)
    (hmem : ∀ c ∈ completed, c.1 ∈ qs)
    (hr : rows.get? i = some r)
    (hgeom : Row.lookup r "the_geom" = some (Cell.str s)) :
    (∀ q ∈ qs, q.1 ≠ i)
    ∧ (∀ p ∈ (reconcile proj completed).1, p.1 ≠ i)
    ∧ (∀ k, k ≠ "Index" →
        cellAt (pipelineOut proj cols rows completed) i k = Row.lookup r k)
    ∧ ((reconcile proj completed).2.1 = [] →
        (pipelineOut proj cols rows completed).get? i = some r) := by
  have hnq : ∀ q ∈ qs, q.1 ≠ i := by
    intro q hqq hqi
    rcases rowsToProcessFrom_mem rows 0 qs hq q hqq with ⟨j, r', s', hj, hqe, hg, _⟩
    have hq1 : q.1 = j := by rw [hqe]; simp
    rw [hq1] at hqi
    subst hqi
    rw [hr] at hj
    have hrr : r' = r := by cases hj; rfl
    rw [hrr, hgeom] at hg
    cases hg
  have hupd : ∀ p ∈ (reconcile proj completed).1, p.1 ≠ i := by
    intro p hp
    rcases reconcileFrom_updates_mem proj completed ([], [], []) p hp
      with h0 | ⟨cc, hcc, he⟩
    · simp at h0
    · rw [← he]
      exact hnq cc.1 (hmem cc hcc)
  have hget : (applyUpdates rows (reconcile proj completed).1).get? i = some r := by
    rw [get_applyUpdates_nomem rows _ i hupd]
    exact hr
  have hilen : i < rows.length := by
    by_contra hge
    rw [List.get?_eq_none.mpr (by omega)] at hr
    cases hr
  refine ⟨hnq, hupd, ?_, ?_⟩
  · intro k hk
    rcases hsplitn : (reconcile proj completed).2.1 with _ | ⟨nr, t⟩
    · have hout : pipelineOut proj cols rows completed
          = applyUpdates rows (reconcile proj completed).1 := by
        simp only [pipelineOut, mergePhase, hsplitn, concatNewRows]
      rw [hout]
      unfold cellAt
      rw [hget]
      rfl
    · have hknr : Row.keys nr = "Index" :: cols := by
        have hnr : nr ∈ (reconcile proj completed).2.1 := by
          rw [hsplitn]; exact List.mem_cons_self _ _
        have hnew : (reconcile proj completed).2.1
            = completed.flatMap (fun c => (processOne proj c.1.2.1 c.2).2.1) := by
          have h0 := reconcileFrom_rows proj completed ([], [], [])
          simpa [reconcile] using h0
        rw [hnew] at hnr
        rcases List.mem_flatMap.mp hnr with ⟨citem, hc, hrc⟩
        rcases processOne_rows_shape proj citem.1.2.1 citem.2 nr hrc with ⟨utm, hr2⟩
        rcases rowsToProcessFrom_mem rows 0 qs hq citem.1 (hmem citem hc)
          with ⟨j, rbase, s', hjr, hq2, _, _⟩
        have hrow : citem.1.2.1 = itRow (0 + j) rbase := by rw [hq2]
        have hkb : Row.keys rbase = cols := hsch rbase (List.get?_mem hjr)
        have hgb : "the_geom" ∈ Row.keys (itRow (0 + j) rbase) := by
          rw [keys_itRow, hkb]; exact List.mem_cons_of_mem _ hgc
        rw [hr2, hrow, keys_setCell_mem _ _ _ hgb, keys_itRow, hkb]
      have hout : pipelineOut proj cols rows completed
          = (applyUpdates rows (reconcile proj completed).1).map
              (reorder (cols ++ ["Index"]))
            ++ (nr :: t).map (reorder (cols ++ ["Index"])) := by
        simp only [pipelineOut, mergePhase, hsplitn, concatNewRows]
        rw [hknr, newCols_eq cols hI]
      rw [hout]
      unfold cellAt
      rw [List.get?_append (by rw [List.length_map, length_applyUpdates]; exact hilen),
        List.get?_map, hget]
      show Row.lookup (reorder (cols ++ ["Index"]) r) k = _
      rw [reorder_pad r cols (hsch r (List.get?_mem hr)) hnd hI]
      exact lookup_append_single_ne r "Index" Cell.na k hk
  · intro hnil
    have hout : pipelineOut proj cols rows completed
        = applyUpdates rows (reconcile proj completed).1 := by
      simp only [pipelineOut, mergePhase, hnil, concatNewRows]
    rw [hout]
    exact hget

/-- C3 amended witness: the geometry-bearing row keeps all its input
cells even while a clone is appended for the other row. -/
theorem C3_amended_frame_witness :
    (∀ q ∈ [((1 : Nat), itRow 1 rowEx, mkQuery "RUA A, 10 - PARANA")], q.1 ≠ 0)
    ∧ cellAt (pipelineOut projEx colsEx [rowGeomEx, rowEx]
        [((1, itRow 1 rowEx, mkQuery "RUA A, 10 - PARANA"),
          geoData [(0, 0), (1, 1)])]) 0 "the_geom"
      = Row.lookup rowGeomEx "the_geom" := by
  have h := C3_amended_frame projEx colsEx [rowGeomEx, rowEx]
    [((1, itRow 1 rowEx, mkQuery "RUA A, 10 - PARANA"), geoData [(0, 0), (1, 1)])]
    [(1, itRow 1 rowEx, mkQuery "RUA A, 10 - PARANA")] 0 rowGeomEx "POINT(1 2)"
    (by decide) (by decide) (by decide) (by decide) rfl
    (by intro c hc; rw [List.mem_singleton.mp hc]; exact List.mem_cons_self _ _)
    rfl rfl
  exact ⟨h.1, h.2.2.1 "the_geom" (by decide)⟩
